import Mathlib

/-!
Verification of the SpecTrail core against its natural-language specification.

The repository implements a desktop workbench driving an LLM provider through
a Plan workflow over a user repository.  The core subsystems verified here are
embedded shallowly from the sources:

* a JSON value model standing for serde_json values (sections below);
* the path-sanitisation gate sanitize_path (plans/spectrail-implementation-plan.md);
* the run_command allow-list gate (plans/spectrail-implementation-plan.md);
* the OpenAI-compatible chat client with retry (sprint-2 doc, llm/client.rs);
* the settings seed and LLM-config builder (002_settings.sql, workflows/plan.rs);
* the bounded tool-call loop generate_plan (sprint-4 doc, workflows/plan.rs).

External effects (the HTTP transport, serde_json parsing, the tool executor,
process spawning, the filesystem) are supplied as oracle parameters; the
control flow around them is translated statement by statement from the source.
-/

set_option linter.unusedVariables false

namespace SpecTrail

/-! ## JSON values (serde_json::Value) -/

/-- A serde_json value.  Numbers are modelled as integers: the sources only
ever build or inspect integral and string-valued fields of the JSON values
that reach the claims. -/
inductive Json where
  | null
  | bool (b : Bool)
  | num (n : Int)
  | str (s : String)
  | arr (elems : List Json)
  | obj (fields : List (String × Json))
deriving Repr

/-- Escape one character as inside a serde_json string literal (the inputs in
this development contain no control characters other than the ones listed). -/
def escapeChar (c : Char) : String :=
  if c = '"' then "\\\""
  else if c = '\\' then "\\\\"
  else if c = '\n' then "\\n"
  else if c = '\t' then "\\t"
  else if c = '\r' then "\\r"
  else String.mk [c]

/-- Escape a string as serde_json does when serialising. -/
def escapeString (s : String) : String :=
  s.data.foldl (fun acc c => acc ++ escapeChar c) ""

mutual

/-- Compact serialisation of a JSON value, as serde_json Value::to_string. -/
def jsonToString : Json → String
  | .null => "null"
  | .bool true => "true"
  | .bool false => "false"
  | .num n => toString n
  | .str s => "\"" ++ escapeString s ++ "\""
  | .arr elems => "[" ++ jsonArrToString elems ++ "]"
  | .obj fields => "\x7b" ++ jsonObjToString fields ++ "\x7d"

/-- Comma-joined serialisation of array elements. -/
def jsonArrToString : List Json → String
  | [] => ""
  | [x] => jsonToString x
  | x :: rest => jsonToString x ++ "," ++ jsonArrToString rest

/-- Comma-joined serialisation of object fields. -/
def jsonObjToString : List (String × Json) → String
  | [] => ""
  | [(k, v)] => "\"" ++ escapeString k ++ "\":" ++ jsonToString v
  | (k, v) :: rest =>
      "\"" ++ escapeString k ++ "\":" ++ jsonToString v ++ "," ++ jsonObjToString rest

end

/-- Field lookup on a JSON object (Value::get on objects); none on non-objects. -/
def Json.get (j : Json) (key : String) : Option Json :=
  match j with
  | .obj fields => (fields.find? (fun kv => kv.1 = key)).map (fun kv => kv.2)
  | _ => none

/-- Value::as_str. -/
def Json.asStr : Json → Option String
  | .str s => some s
  | _ => none

/-- Value::as_u64 (restricted to non-negative integers of our number model). -/
def Json.asU64 : Json → Option Nat
  | .num n => if 0 ≤ n then some n.toNat else none
  | _ => none

/-! ## Tool errors (repo_tools, spectrail-implementation-plan.md Phase 2/3) -/

/-- The repo-tool error enum from the implementation plan. -/
inductive ToolError where
  | pathTraversal
  | disallowedCommand
  | invalidArgs (msg : String)
  | execution (msg : String)
deriving Repr, DecidableEq

/-! ## PathGuard: sanitize_path (spectrail-implementation-plan.md, Phase 3.2)

Paths are modelled component-wise.  A Rust Path is a flag saying whether the
path is absolute plus a list of components, where a component is either a
parent-directory step or a normal name (the sources never pass CurDir or
Windows prefixes to the gate).  The filesystem is a finite set of existing
absolute canonical paths, each a list of names from the root; symlinks are
not modelled, so Path::canonicalize is resolution of parent-dir steps plus an
existence check against that set. -/

/-- One path component: a parent-directory step or a normal name. -/
inductive PathComp where
  | parentDir
  | normal (name : String)
deriving Repr, DecidableEq

/-- A Rust Path: absoluteness flag plus components. -/
structure RPath where
  absolute : Bool
  comps : List PathComp
deriving Repr, DecidableEq

/-- Path::join: an absolute right-hand side replaces the left-hand side. -/
def joinPath (base p : RPath) : RPath :=
  if p.absolute then p else { absolute := base.absolute, comps := base.comps ++ p.comps }

/-- Resolve parent-dir steps against a stack of names; a parent-dir step at
the root stays at the root, as on a real filesystem. -/
def normalizeComps (stack : List String) : List PathComp → List String
  | [] => stack
  | .parentDir :: rest => normalizeComps (stack.dropLast) rest
  | .normal name :: rest => normalizeComps (stack ++ [name]) rest

/-- The filesystem model: the set of existing absolute canonical paths. -/
abbrev Fs := List (List String)

/-- Path::canonicalize, without symlinks: fails on relative paths and on
paths that do not exist. -/
def canonicalize (fs : Fs) (p : RPath) : Option (List String) :=
  if p.absolute then
    let n := normalizeComps [] p.comps
    if n ∈ fs then some n else none
  else none

/-- Lift a canonical path back to an RPath (for re-canonicalisation). -/
def ofNames (names : List String) : RPath :=
  { absolute := true, comps := names.map PathComp.normal }

/-- sanitize_path from the implementation plan: drop ParentDir components of
the request, join onto the base, canonicalise both, and require the result to
start with the canonical base. -/
def sanitize_path (fs : Fs) (base : RPath) (requested : RPath) :
    Except ToolError (List String) :=
  let cleaned : RPath :=
    { absolute := requested.absolute
      comps := requested.comps.filter (fun c => c ≠ PathComp.parentDir) }
  let full := joinPath base cleaned
  match canonicalize fs full with
  | none => .error .pathTraversal
  | some canonical =>
    match canonicalize fs base with
    | none => .error .pathTraversal
    | some canonical_base =>
      if canonical_base.isPrefixOf canonical then .ok canonical
      else .error .pathTraversal

/-! ## run_command allow-list gate (spectrail-implementation-plan.md, Phase 3) -/

/-- The enumerated command allow-list, verbatim from the implementation plan. -/
def ALLOWED_COMMANDS : List String :=
  [ "npm test"
  , "pnpm test"
  , "yarn test"
  , "cargo test"
  , "pytest"
  , "python -m pytest"
  , "npm run lint"
  , "pnpm lint"
  , "cargo clippy"
  , "cargo build"
  , "npm run build"
  , "pnpm build" ]

/-- Rust str::starts_with, character-wise. -/
def strStartsWith (s p : String) : Bool :=
  p.data.isPrefixOf s.data

/-- Worker for splitWhitespace: acc holds the current word reversed. -/
def splitWhitespaceAux : List Char → List Char → List String
  | [], acc => if acc.isEmpty then [] else [String.mk acc.reverse]
  | c :: cs, acc =>
    if c.isWhitespace then
      (if acc.isEmpty then [] else [String.mk acc.reverse]) ++ splitWhitespaceAux cs []
    else
      splitWhitespaceAux cs (c :: acc)

/-- Rust str::split_whitespace: split on whitespace runs, producing no empty
words. -/
def splitWhitespace (s : String) : List String :=
  splitWhitespaceAux s.data []

/-- The process invocation run_command would hand to the spawner: program,
argv tail, and the timeout in seconds. -/
structure SpawnRequest where
  program : String
  args : List String
  timeout_secs : Nat
deriving Repr, DecidableEq

/-- RepoTools::run_command up to the spawn point: validate the requested
command against the allow-list and build the spawn request.  The actual child
process execution is the environment; everything before it is translated from
the source. -/
def run_command_gate (args : Json) : Except ToolError SpawnRequest :=
  match (args.get "command").bind Json.asStr with
  | none => .error (.invalidArgs "command required")
  | some command =>
    if ALLOWED_COMMANDS.any (fun allowed => strStartsWith command allowed) then
      let timeout_secs := ((args.get "timeout_secs").bind Json.asU64).getD 120
      match splitWhitespace command with
      | [] => .error (.invalidArgs "empty command")
      | program :: rest => .ok { program := program, args := rest, timeout_secs := timeout_secs }
    else
      .error .disallowedCommand

/-! ## The chat-completions client (sprint-2 doc, src-tauri/src/llm)

The HTTP transport is the environment: one attempt of the operation closure
either fails on the wire (reqwest errors, including body-decoding failures,
which the source converts into LlmError::Http via the question-mark operator)
or produces a status code with either a decoded success body or an error
text.  The operation closure's classification of non-success statuses and the
retry combinator around it are translated from the source. -/

namespace Llm

/-- Sprint-2 chat message: plain role and content. -/
structure ChatMessage where
  role : String
  content : String
deriving Repr, DecidableEq

/-- One choice of an OpenAI chat response. -/
structure Choice where
  index : Int
  message : ChatMessage
  finish_reason : String
deriving Repr, DecidableEq

/-- Decoded OpenAI chat response body. -/
structure OpenAIChatResponse where
  id : String
  model : String
  choices : List Choice
deriving Repr, DecidableEq

/-- The client error enum from llm/client.rs. -/
inductive LlmError where
  | missingApiKey
  | http (msg : String)
  | api (status : Nat) (message : String)
  | invalidResponse (msg : String)
  | timeout
  | rateLimited
deriving Repr, DecidableEq

/-- Outcome of a single HTTP attempt, as seen by the operation closure. -/
inductive HttpAttempt where
  | networkError (msg : String)
  | success (resp : OpenAIChatResponse)
  | failure (status : Nat) (error_text : String)
deriving Repr

/-- The status match of the operation closure in LlmClient::chat.  The two
final arms of the source match (statuses at least 500, and everything else)
build the identical Api value, so they collapse to one branch here. -/
def classifyStatus (status : Nat) (error_text : String) : LlmError :=
  if status = 429 then .rateLimited
  else if status = 401 then .api 401 "Invalid API key"
  else .api status error_text

/-- One evaluation of the operation closure: a network error surfaces as
LlmError::Http via the question-mark operator; a success status yields the
decoded body; any other status is classified. -/
def chatOperation (attempt : HttpAttempt) : Except LlmError OpenAIChatResponse :=
  match attempt with
  | .networkError msg => .error (.http msg)
  | .success resp => .ok resp
  | .failure status error_text => .error (classifyStatus status error_text)

/-- The backoff configuration record (milliseconds). -/
structure ExponentialBackoff where
  initial_interval : Nat
  max_interval : Nat
  max_elapsed_time : Option Nat
deriving Repr, DecidableEq

/-- The backoff built in LlmClient::chat: 500 ms initial interval, 4 s
interval cap, 30 s total elapsed cap. -/
def chatBackoff : ExponentialBackoff :=
  { initial_interval := 500, max_interval := 4000, max_elapsed_time := some 30000 }

/-- The retry combinator of the backoff crate, as instantiated by the source.
The operation returns plain LlmError values, which reach the combinator
through the blanket conversion into transient errors — the source constructs
no permanent error anywhere — so every error is retried while the elapsed
budget lasts.  Randomised sleep timing is abstracted into maxRetries, the
number of re-attempts the 30 s elapsed cap still allows (at least one, given
the 500 ms initial interval). -/
def retryGo (op : Nat → Except LlmError α) : Nat → Nat → Except LlmError α
  | k, 0 =>
    op k
  | k, maxRetries + 1 =>
    match op k with
    | .ok v => .ok v
    | .error _ => retryGo op (k + 1) maxRetries

/-- retry(backoff, operation): start at attempt 0. -/
def retryOperation (maxRetries : Nat) (op : Nat → Except LlmError α) : Except LlmError α :=
  retryGo op 0 maxRetries

/-- Extraction of the final content in LlmClient::chat:
choices.into_iter().next().map(content).ok_or(InvalidResponse). -/
def extractContent (resp : OpenAIChatResponse) : Except LlmError String :=
  match resp.choices with
  | [] => .error (.invalidResponse "No choices in response")
  | choice :: _ => .ok choice.message.content

/-- LlmClient::chat: reject an empty key, run the operation under retry, then
extract the first choice's content.  The attempt sequence stands for the
transport's behaviour on each try. -/
def chat (api_key : String) (attempts : Nat → HttpAttempt) (maxRetries : Nat) :
    Except LlmError String :=
  if api_key = "" then .error .missingApiKey
  else
    match retryOperation maxRetries (fun k => chatOperation (attempts k)) with
    | .error e => .error e
    | .ok result => extractContent result

end Llm

/-! ## Sprint-4 tool-calling types (llm/types.rs additions, workflows/plan.rs) -/

/-- A tool function reference: name plus raw JSON argument text. -/
structure ToolFunction where
  name : String
  arguments : String
deriving Repr, DecidableEq

/-- A tool call as used by the plan workflow.  The wire type additionally
carries a constant type tag "function", which the client mapping in
chat_with_tools drops; it is omitted here. -/
structure ToolCall where
  id : String
  function : ToolFunction
deriving Repr, DecidableEq

/-- Sprint-4 chat message: optional content, optional tool linkage. -/
structure ChatMessage where
  role : String
  content : Option String
  tool_call_id : Option String
  tool_calls : Option (List ToolCall)
deriving Repr, DecidableEq

/-- One choice of the tool-calling chat response. -/
structure Choice where
  index : Int
  message : ChatMessage
  finish_reason : String
deriving Repr, DecidableEq

/-- Decoded tool-calling chat response body. -/
structure OpenAIChatResponse where
  id : String
  model : String
  choices : List Choice
deriving Repr, DecidableEq

/-- The assistant turn the plan workflow consumes. -/
structure LlmResponse where
  content : Option String
  tool_calls : Option (List ToolCall)
deriving Repr, DecidableEq

/-- Decoding step of LlmClient::chat_with_tools after the retried request:
take the first choice's message, or fail with InvalidResponse when the
choices array is empty.  The HTTP and retry pipeline around it is the one
modelled in the Llm namespace. -/
def chat_with_tools (resp : OpenAIChatResponse) : Except Llm.LlmError LlmResponse :=
  match resp.choices with
  | [] => .error (.invalidResponse "No choices in response")
  | choice :: _ => .ok { content := choice.message.content, tool_calls := choice.message.tool_calls }

/-! ## Settings (002_settings.sql seed; build_llm_config in workflows/plan.rs) -/

/-- The rows inserted by the 002_settings.sql migration (INSERT OR IGNORE). -/
def settingsSeed : List (String × String) :=
  [ ("provider_name", "openai")
  , ("base_url", "https://openrouter.ai/api/v1")
  , ("model", "z-ai/glm-4.7-flash")
  , ("temperature", "0.2")
  , ("max_tokens", "2000")
  , ("extra_headers_json", "\x7b\x7d")
  , ("dev_mode", "0") ]

/-- The LLM configuration record.  The temperature is rational here; the f64
rounding of Rust's parser is abstracted away (no claim depends on float
values). -/
structure LlmConfig where
  provider_name : String
  base_url : String
  model : String
  temperature : Rat
  max_tokens : Int
  extra_headers : Json
deriving Repr

/-- Decimal parser standing for str::parse into f64, restricted to the plain
digits[.digits] forms the settings use; other shapes fail, which only makes
the fallback branch larger. -/
def parseDecimal (s : String) : Option Rat :=
  match s.split (fun c => c = '.') with
  | [w] => (w.toNat?).map (fun n => (n : Rat))
  | [w, f] =>
    match w.toNat?, f.toNat? with
    | some wn, some fn => some ((wn : Rat) + (fn : Rat) / ((10 : Rat) ^ f.length))
    | _, _ => none
  | _ => none

/-- build_llm_config from workflows/plan.rs: every key falls back on absence
or parse failure — the string keys to the empty string (unwrap_or_default),
temperature to 0.2, max_tokens to 4000, extra headers to the empty object.
serde_json::from_str for the extra headers is supplied as the parseJson
parameter. -/
def build_llm_config (parseJson : String → Option Json)
    (settings : List (String × String)) : LlmConfig :=
  { provider_name := (settings.lookup "provider_name").getD ""
  , base_url := (settings.lookup "base_url").getD ""
  , model := (settings.lookup "model").getD ""
  , temperature := ((settings.lookup "temperature").bind parseDecimal).getD (2 / 10 : Rat)
  , max_tokens := ((settings.lookup "max_tokens").bind String.toInt?).getD 4000
  , extra_headers := ((settings.lookup "extra_headers_json").bind parseJson).getD (.obj []) }

/-- LlmConfig::from_settings from the sprint-2 llm/types.rs, used by the
create_run helper: same lookups, but with 0.7 and 4096 as the numeric
fallbacks. -/
def LlmConfig.from_settings (parseJson : String → Option Json)
    (settings : List (String × String)) : LlmConfig :=
  { provider_name := (settings.lookup "provider_name").getD ""
  , base_url := (settings.lookup "base_url").getD ""
  , model := (settings.lookup "model").getD ""
  , temperature := ((settings.lookup "temperature").bind parseDecimal).getD (7 / 10 : Rat)
  , max_tokens := ((settings.lookup "max_tokens").bind String.toInt?).getD 4096
  , extra_headers := ((settings.lookup "extra_headers_json").bind parseJson).getD (.obj []) }

/-! ## The plan workflow (sprint-4 doc, src-tauri/src/workflows/plan.rs)

The loop is deterministic once its environment is fixed: the provider's
response to each request, serde_json argument parsing, and the repo-tool
executor are oracle fields of PlanEnv.  Ghost fields (the persisted message
log, the run row, and the per-request pair of pre-truncation and sent message
lists) record the observable effects; they alter no control flow. -/

namespace Plan

/-- The workflow error envelope. -/
structure PlanError where
  code : String
  message : String
deriving Repr, DecidableEq

/-- The workflow result shape returned to the caller. -/
structure PlanResult where
  run_id : String
  plan_md : String
  tool_calls_count : Nat
  truncated : Bool
deriving Repr, DecidableEq

/-- Iteration cap of the tool-call loop. -/
def MAX_TOOL_ITERATIONS : Nat := 12

/-- Context cap in bytes (the source sums String::len, i.e. UTF-8 bytes). -/
def MAX_CONTEXT_CHARS : Nat := 100000

/-- The task fields the workflow reads. -/
structure Task where
  id : String
  title : String
deriving Repr, DecidableEq

/-- The project fields the workflow reads. -/
structure Project where
  id : String
  repo_path : String
deriving Repr, DecidableEq

/-- A persisted messages row (add_message stores role and content only). -/
structure MessageRow where
  run_id : String
  role : String
  content : String
deriving Repr, DecidableEq

/-- A persisted runs row; create_run inserts ended_at as NULL. -/
structure RunRow where
  id : String
  task_id : String
  run_type : String
  provider : Option String
  model : Option String
  started_at : String
  ended_at : Option String
deriving Repr, DecidableEq

/-- The environment of one generate_plan invocation. -/
structure PlanEnv where
  /-- Provider response to the k-th chat request of the run. -/
  llm : Nat → LlmResponse
  /-- serde_json::from_str on tool-call argument text. -/
  parseArgs : String → Except String Json
  /-- execute_repo_tool: tool name and argument object to result or error. -/
  execTool : String → Json → Except String Json
  /-- The SPECTRAIL_API_KEY environment variable. -/
  apiKeyVar : Option String
  /-- The settings table contents. -/
  settings : List (String × String)
  /-- The id new_id() mints for the run row. -/
  runId : String
  /-- The now_iso() timestamp at run creation. -/
  startedAt : String

/-- Byte length of a message's content, 0 when absent. -/
def contentLen (m : ChatMessage) : Nat :=
  match m.content with
  | some c => c.utf8ByteSize
  | none => 0

/-- The context-size sum computed before each provider call. -/
def contextSize (messages : List ChatMessage) : Nat :=
  (messages.map contentLen).sum

/-- Rust Iterator rev().take(n).rev(): the last n elements in order. -/
def lastN (n : Nat) (xs : List α) : List α :=
  (xs.reverse.take n).reverse

/-- truncate_messages from workflows/plan.rs: lists shorter than 3 are
returned unchanged; otherwise the first message is prepended to the last six
messages of the full list (the max_chars parameter is unused in the source as
well). -/
def truncate_messages (messages : List ChatMessage) (max_chars : Nat) : List ChatMessage :=
  if messages.length < 3 then messages
  else
    let system := messages.head?
    let recent := lastN 6 messages
    (match system with | some sys => [sys] | none => []) ++ recent

/-- The plan-mode system prompt of build_initial_messages. -/
def planSystemPrompt : String :=
  "You are a senior technical lead creating detailed implementation plans.\n\nYour task: Analyze the codebase and produce a comprehensive implementation plan.\n\nRequired output format (Markdown):\n\n# Implementation Plan: [Title]\n\n## 1. Summary\nBrief overview of the approach (2-3 sentences).\n\n## 2. Goals & Non-Goals\n**Goals:**\n- What this implementation achieves\n\n**Non-Goals:**\n- What is explicitly out of scope\n\n## 3. Repo Context Assumptions\n- Key files/modules that exist\n- Dependencies to leverage\n\n## 4. File-by-File Changes\nFor each file to modify/create:\n- **Path**: relative path\n- **Purpose**: what this file does\n- **Key Changes**: specific modifications\n\n## 5. Step-by-Step Implementation Checklist\n- [ ] Step 1: ...\n- [ ] Step 2: ...\n(Ordered by dependency, earliest first)\n\n## 6. Risks + Mitigations\n| Risk | Mitigation |\n|------|------------|\n| Risk description | How to address it |\n\n## 7. Validation Steps\n- [ ] Tests: `run_command` with kind=\"tests\"\n- [ ] Lint: `run_command` with kind=\"lint\"\n- [ ] Build: `run_command` with kind=\"build\"\n\n---\n\nInstructions:\n1. Use the provided tools to explore the codebase before writing the plan\n2. Call `list_files` to understand the project structure\n3. Call `read_file` to examine key files\n4. Call `grep` to find relevant code patterns\n5. Call `git_status` and `git_diff` to see current state\n6. Only write the plan after gathering sufficient context\n7. If you need more information, make another tool call\n8. When complete, output ONLY the plan in the format above (no tool calls in final output)\n"

/-- The user prompt of build_initial_messages, with the task title and repo
path interpolated. -/
def planUserPrompt (title repo_path : String) : String :=
  "Task: " ++ title ++ "\n\nRepository: " ++ repo_path ++
  "\n\nPlease explore this codebase and create a detailed implementation plan.\n\nAvailable tools:\n- list_files: See project structure\n- read_file: Examine file contents\n- grep: Search for patterns\n- git_status/git_diff: Check current changes\n- run_command: Run tests/lint/build\n\nStart by listing files to understand the project structure, then read key files to understand the codebase before writing your plan."

/-- build_initial_messages: the seed system and user pair. -/
def build_initial_messages (task : Task) (project : Project) : List ChatMessage :=
  [ { role := "system", content := some planSystemPrompt
    , tool_call_id := none, tool_calls := none }
  , { role := "user", content := some (planUserPrompt task.title project.repo_path)
    , tool_call_id := none, tool_calls := none } ]

/-- project_id injection into parsed arguments: entry("project_id").or_insert
on object values, other values unchanged (key order inside the serde map is
abstracted to an append). -/
def argsWithProject (args : Json) (project_id : String) : Json :=
  match args with
  | .obj fields =>
    if fields.any (fun kv => kv.1 = "project_id") then .obj fields
    else .obj (fields ++ [("project_id", .str project_id)])
  | other => other

/-- execute_single_tool from workflows/plan.rs: a failed argument parse
propagates as an INVALID_ARGS PlanError (the question-mark operator), while a
tool execution error is serialised into an error envelope and returned as an
ordinary payload. -/
def execute_single_tool (env : PlanEnv) (project_id : String) (tool_call : ToolCall) :
    Except PlanError String :=
  match env.parseArgs tool_call.function.arguments with
  | .error e =>
    .error { code := "INVALID_ARGS", message := "Failed to parse tool args: " ++ e }
  | .ok args =>
    let args_with_project := argsWithProject args project_id
    match env.execTool tool_call.function.name args_with_project with
    | .ok val => .ok (jsonToString val)
    | .error e => .ok (jsonToString (.obj [("error", .str e)]))

/-- The mutable state of the tool-call loop, plus ghost observation fields:
log is the persisted messages table, calls records for every provider request
the message list before the context check and the list actually sent. -/
structure LoopState where
  messages : List ChatMessage
  tool_calls_count : Nat
  truncated : Bool
  log : List MessageRow
  calls : List (List ChatMessage × List ChatMessage)
deriving Repr, DecidableEq

/-- The inner for-loop over one turn's tool calls: execute each in order,
push the tool message onto the context, and persist it (log failures are
ignored by the source; persistence always succeeds in this model).  An
execute_single_tool error aborts, carrying the state reached so far. -/
def runToolCalls (env : PlanEnv) (run_id project_id : String) :
    List ToolCall → LoopState → Except (PlanError × LoopState) LoopState
  | [], st => .ok st
  | tool_call :: rest, st =>
    match execute_single_tool env project_id tool_call with
    | .error e => .error (e, st)
    | .ok tool_result =>
      let tool_message : ChatMessage :=
        { role := "tool", content := some tool_result
        , tool_call_id := some tool_call.id, tool_calls := none }
      runToolCalls env run_id project_id rest
        { st with
          messages := st.messages ++ [tool_message]
          log := st.log ++ [{ run_id := run_id, role := "tool", content := tool_result }] }

/-- The context check at the top of each iteration: when the byte sum
exceeds the cap, set the truncated flag and pass the messages through
truncate_messages. -/
def capState (st : LoopState) : LoopState :=
  if contextSize st.messages > MAX_CONTEXT_CHARS then
    { st with truncated := true, messages := truncate_messages st.messages MAX_CONTEXT_CHARS }
  else st

/-- Ghost observation: record one provider request as the pair of the
pre-check message list and the list actually sent. -/
def recordCall (pre : List ChatMessage) (st : LoopState) : LoopState :=
  { st with calls := st.calls ++ [(pre, st.messages)] }

/-- Persist the assistant content when the response carries one. -/
def logAssistant (run_id : String) (content : Option String) (st : LoopState) : LoopState :=
  match content with
  | some c => { st with log := st.log ++ [{ run_id := run_id, role := "assistant", content := c }] }
  | none => st

/-- Outcome of one iteration of the for-loop body: break with the final
plan, continue to the next iteration, or abort with a PlanError. -/
inductive StepOut where
  | done (st : LoopState) (final_plan : String)
  | next (st : LoopState)
  | fail (e : PlanError) (st : LoopState)
deriving Repr, DecidableEq

/-- The loop state an iteration outcome carries. -/
def stepState : StepOut → LoopState
  | .done st _ => st
  | .next st => st
  | .fail _ st => st

/-- The tool-execution tail of one iteration: bump the counter by the number
of calls in the turn, run them in order, and on success push the assistant
message carrying the turn's content and tool_calls onto the context — after
the tool messages, exactly as in the source. -/
def afterTools (env : PlanEnv) (run_id project_id : String) (response : LlmResponse)
    (tool_calls : List ToolCall) (st3 : LoopState) : StepOut :=
  let st4 := { st3 with tool_calls_count := st3.tool_calls_count + tool_calls.length }
  match runToolCalls env run_id project_id tool_calls st4 with
  | .error (e, stE) => .fail e stE
  | .ok st5 =>
    let assistant_message : ChatMessage :=
      { role := "assistant", content := response.content
      , tool_call_id := none, tool_calls := response.tool_calls }
    .next { st5 with messages := st5.messages ++ [assistant_message] }

/-- The branch on the response's tool_calls: break when there are none (or
an empty list of them), execute them otherwise. -/
def stepSwitch (env : PlanEnv) (run_id project_id : String) (response : LlmResponse)
    (st3 : LoopState) : StepOut :=
  match response.tool_calls with
  | some tool_calls =>
    if tool_calls.isEmpty then
      .done st3 (response.content.getD "")
    else
      afterTools env run_id project_id response tool_calls st3
  | none => .done st3 (response.content.getD "")

/-- One iteration of the for-loop body of generate_plan, in source order:
context check and pruning, provider call, recording the request, persisting
the assistant content when present, then the branch on tool_calls. -/
def planStep (env : PlanEnv) (run_id project_id : String) (st : LoopState) : StepOut :=
  stepSwitch env run_id project_id (env.llm (capState st).calls.length)
    (logAssistant run_id (env.llm (capState st).calls.length).content
      (recordCall st.messages (capState st)))

/-- The for-loop of generate_plan: iterate planStep at most fuel times.
Returns the final state plus the break value: some final_plan when the loop
broke, none when the iteration budget ran out. -/
def planLoop (env : PlanEnv) (run_id project_id : String) :
    Nat → LoopState → Except (PlanError × LoopState) (LoopState × Option String)
  | 0, st => .ok (st, none)
  | fuel + 1, st =>
    match planStep env run_id project_id st with
    | .done st' final_plan => .ok (st', some final_plan)
    | .fail e st' => .error (e, st')
    | .next st' => planLoop env run_id project_id fuel st'

/-- The truncation note appended when the cap is exhausted with an empty
plan, from the format string in generate_plan. -/
def truncationNote (plan : String) : String :=
  plan ++ "\n\n---\n\n**Note**: Reached maximum tool call limit (" ++
    toString MAX_TOOL_ITERATIONS ++
    "). Plan may be incomplete.\nConsider breaking this task into smaller phases."

/-- create_run (commands.rs helper, part_005): insert a runs row whose
provider and model come from LlmConfig::from_settings and whose ended_at
column is NULL. -/
def create_run (env : PlanEnv) (task_id run_type : String) : RunRow :=
  let config := LlmConfig.from_settings (fun s => (env.parseArgs s).toOption) env.settings
  { id := env.runId, task_id := task_id, run_type := run_type
  , provider := some config.provider_name, model := some config.model
  , started_at := env.startedAt, ended_at := none }

/-- Everything observable when generate_plan returns successfully. -/
structure GeneratePlanOutcome where
  result : PlanResult
  run : RunRow
  artifact : String × String × String
  log : List MessageRow
  calls : List (List ChatMessage × List ChatMessage)
  exhausted : Bool
deriving Repr, DecidableEq

/-- The loop state at entry: the seed messages, zero counters, empty log. -/
def initState (task : Task) (project : Project) : LoopState :=
  { messages := build_initial_messages task project
  , tool_calls_count := 0, truncated := false, log := [], calls := [] }

/-- The post-loop tail of generate_plan: when the tool-call counter has
reached the iteration cap and the final plan is empty, append the truncation
note and force truncated; then upsert the plan artifact and build the
result. -/
def finishPlan (run : RunRow) (task : Task) (st : LoopState) (exit : Option String) :
    GeneratePlanOutcome :=
  let final_plan := exit.getD ""
  let noted :=
    if MAX_TOOL_ITERATIONS ≤ st.tool_calls_count ∧ final_plan = "" then
      (truncationNote final_plan, true)
    else (final_plan, st.truncated)
  { result :=
      { run_id := run.id, plan_md := noted.1
      , tool_calls_count := st.tool_calls_count, truncated := noted.2 }
  , run := run
  , artifact := (task.id, "plan_md", noted.1)
  , log := st.log
  , calls := st.calls
  , exhausted := exit.isNone }

/-- generate_plan from workflows/plan.rs: resolve the credential, create the
run row, seed the messages, drive the loop for at most MAX_TOOL_ITERATIONS
turns, then apply the truncation-note rule and upsert the plan artifact.  The
run row is never updated after creation — nothing in the source sets
ended_at. -/
def generate_plan (env : PlanEnv) (project : Project) (task : Task) :
    Except PlanError GeneratePlanOutcome :=
  match env.apiKeyVar with
  | none =>
    .error { code := "NO_API_KEY", message := "SPECTRAIL_API_KEY environment variable not set" }
  | some _api_key =>
    match planLoop env (create_run env task.id "plan").id project.id MAX_TOOL_ITERATIONS
        (initState task project) with
    | .error (e, _) => .error e
    | .ok (st, exit) => .ok (finishPlan (create_run env task.id "plan") task st exit)

end Plan

/-! ## General helper lemmas -/

/-- Byte length distributes over string append. -/
theorem utf8ByteSize_append (a b : String) :
    (a ++ b).utf8ByteSize = a.utf8ByteSize + b.utf8ByteSize := by
  show String.utf8Len (a ++ b).data = String.utf8Len a.data + String.utf8Len b.data
  rw [show (a ++ b).data = a.data ++ b.data by simp]
  simp

/-- Byte length of a replicated-character string. -/
theorem utf8ByteSize_replicate (n : Nat) (c : Char) :
    (String.mk (List.replicate n c)).utf8ByteSize = n * c.utf8Size := by
  show String.utf8Len (List.replicate n c) = n * c.utf8Size
  induction n with
  | zero => simp
  | succ k ih => simp [List.replicate, ih, Nat.succ_mul, Nat.add_comm]

/-! ## Claim C2: PathGuard containment -/

/-- Resolving a list of plain names only pushes them onto the stack. -/
theorem normalizeComps_normals (stack : List String) (l : List String) :
    normalizeComps stack (l.map PathComp.normal) = stack ++ l := by
  induction l generalizing stack with
  | nil => simp [normalizeComps]
  | cons x xs ih => simp [normalizeComps, ih]

/-- What a successful canonicalisation means. -/
theorem canonicalize_eq_some {fs : Fs} {p : RPath} {n : List String}
    (h : canonicalize fs p = some n) :
    p.absolute = true ∧ n = normalizeComps [] p.comps ∧ n ∈ fs := by
  rw [canonicalize] at h
  split at h
  · next hab =>
    dsimp only at h
    by_cases hmem : normalizeComps [] p.comps ∈ fs
    · rw [if_pos hmem] at h
      exact ⟨hab, (Option.some.inj h).symm, (Option.some.inj h) ▸ hmem⟩
    · rw [if_neg hmem] at h
      exact absurd h (by simp)
  · exact absurd h (by simp)

/-- A canonical existing path canonicalises to itself. -/
theorem canonicalize_ofNames {fs : Fs} {n : List String} (hmem : n ∈ fs) :
    canonicalize fs (ofNames n) = some n := by
  simp [canonicalize, ofNames, normalizeComps_normals, hmem]

/-- C2: every path sanitize_path returns is canonical (it exists and
re-canonicalises to itself) and starts with the canonical repo root; every
escape fails with PathTraversal.  The clause of the claim saying a request
containing parent-directory components never yields a usable path is refuted
separately: such components are stripped, not rejected. -/
theorem c2_sanitize_path_contained (fs : Fs) (base requested : RPath) (p : List String)
    (h : sanitize_path fs base requested = .ok p) :
    p ∈ fs ∧ canonicalize fs (ofNames p) = some p ∧
      ∃ cb, canonicalize fs base = some cb ∧ cb.isPrefixOf p = true := by
  simp only [sanitize_path] at h
  cases hc : canonicalize fs (joinPath base
      { absolute := requested.absolute
        comps := requested.comps.filter (fun c => c ≠ PathComp.parentDir) }) with
  | none => rw [hc] at h; exact absurd h (by simp)
  | some canonical =>
    rw [hc] at h
    cases hcb : canonicalize fs base with
    | none => rw [hcb] at h; exact absurd h (by simp)
    | some cb =>
      rw [hcb] at h
      dsimp only at h
      cases hpre : cb.isPrefixOf canonical with
      | false => rw [hpre] at h; exact absurd h (by simp)
      | true =>
        rw [hpre] at h
        simp only [if_true] at h
        have hcp : canonical = p := by
          cases h; rfl
        subst hcp
        have hmem := (canonicalize_eq_some hc).2.2
        exact ⟨hmem, canonicalize_ofNames hmem, cb, rfl, hpre⟩

/-- Filesystem for the C2 witness. -/
def fsC2w : Fs := [[], ["repo"], ["repo", "src"]]

/-- Repo root for the C2 witness. -/
def baseC2w : RPath := { absolute := true, comps := [PathComp.normal "repo"] }

/-- Requested relative path for the C2 witness. -/
def reqC2w : RPath := { absolute := false, comps := [PathComp.normal "src"] }

/-- C2 witness: a concrete contained request resolves and the containment
theorem applies to it. -/
theorem c2_sanitize_path_contained_witness :
    ["repo", "src"] ∈ fsC2w ∧
      canonicalize fsC2w (ofNames ["repo", "src"]) = some ["repo", "src"] ∧
      ∃ cb, canonicalize fsC2w baseC2w = some cb ∧ cb.isPrefixOf ["repo", "src"] = true :=
  c2_sanitize_path_contained fsC2w baseC2w reqC2w ["repo", "src"] (by rfl)

/-- Filesystem for the C2 counterexample. -/
def fsC2c : Fs := [[], ["repo"], ["repo", "a"], ["repo", "a", "b"]]

/-- Repo root for the C2 counterexample. -/
def baseC2c : RPath := { absolute := true, comps := [PathComp.normal "repo"] }

/-- Requested path containing a parent-directory component. -/
def reqC2c : RPath :=
  { absolute := false
  , comps := [PathComp.normal "a", PathComp.parentDir, PathComp.normal "b"] }

/-- C2 counterexample: a requested path containing a parent-directory
component still yields a usable path — sanitize_path filters ParentDir
components out instead of rejecting the request (note the stripped request
even resolves to a different file than the path written: a/../b names b, but
the gate resolves it to a/b). -/
theorem c2_counterexample :
    PathComp.parentDir ∈ reqC2c.comps ∧
      sanitize_path fsC2c baseC2c reqC2c = .ok ["repo", "a", "b"] :=
  ⟨by decide, by rfl⟩

/-! ## Claim C8: run_command allow-list -/

/-- C8 (amended): the gate admits exactly the commands having an allow-listed
entry as a string prefix.  A command without such a prefix fails with
DisallowedCommand before any spawn request is built; every spawn request that
is built comes from a command with an allow-listed prefix. -/
theorem c8_run_command_prefix_gate (args : Json) (command : String)
    (hcmd : (args.get "command").bind Json.asStr = some command) :
    (ALLOWED_COMMANDS.any (fun allowed => strStartsWith command allowed) = false →
      run_command_gate args = .error .disallowedCommand) ∧
    (∀ req, run_command_gate args = .ok req →
      ALLOWED_COMMANDS.any (fun allowed => strStartsWith command allowed) = true ∧
        splitWhitespace command = req.program :: req.args) := by
  constructor
  · intro hno
    rw [run_command_gate, hcmd]
    dsimp only
    rw [hno]
    simp
  · intro req hok
    rw [run_command_gate, hcmd] at hok
    dsimp only at hok
    cases hyes : ALLOWED_COMMANDS.any (fun allowed => strStartsWith command allowed) with
    | false => rw [hyes] at hok; simp at hok
    | true =>
      rw [hyes] at hok
      simp only [if_true] at hok
      refine ⟨rfl, ?_⟩
      cases hsplit : splitWhitespace command with
      | nil => rw [hsplit] at hok; simp at hok
      | cons program rest =>
        rw [hsplit] at hok
        cases hok
        rfl

/-- C8 witness: a command outside every allow-listed prefix is rejected
before spawning, via the gate theorem at a concrete input. -/
theorem c8_run_command_prefix_gate_witness :
    run_command_gate (.obj [("command", .str "rm -rf /")]) = .error .disallowedCommand :=
  (c8_run_command_prefix_gate (.obj [("command", .str "rm -rf /")]) "rm -rf /" (by rfl)).1 (by rfl)

/-- C8 counterexample: a command that is not a member of the enumerated
allow-list still reaches process creation, because the source checks
starts_with rather than membership. -/
theorem c8_counterexample :
    ("npm test --watchAll" ∈ ALLOWED_COMMANDS → False) ∧
      run_command_gate (.obj [("command", .str "npm test --watchAll")]) =
        .ok { program := "npm", args := ["test", "--watchAll"], timeout_secs := 120 } :=
  ⟨by decide, by rfl⟩

/-! ## Claim C5: retry policy of the chat client -/

/-- Retrying with a success at hand returns it at any budget. -/
theorem retryGo_ok {α : Type} (op : Nat → Except Llm.LlmError α) (k n : Nat)
    (v : α) (hop : op k = .ok v) : Llm.retryGo op k n = .ok v := by
  cases n <;> simp [Llm.retryGo, hop]

/-- C5 (amended): the backoff is configured with initial interval 500 ms,
interval cap 4 s and elapsed cap 30 s; network errors surface as Http, a 429
as RateLimited, a 401 as the invalid-credentials API error, and statuses of
500 and above as ProviderError-style API errors — but the combinator retries
on every error outcome alike while budget remains: the source converts all
its errors into transient ones, so 400, 401, 403, 404 and 422 are retried
exactly like 429 and 5xx. -/
theorem c5_retry_policy {α : Type} (op : Nat → Except Llm.LlmError α) (k n : Nat)
    (e : Llm.LlmError) (hop : op k = .error e)
    (s : Nat) (t m : String) (hs : 500 ≤ s) :
    Llm.chatBackoff.initial_interval = 500 ∧
    Llm.chatBackoff.max_interval = 4000 ∧
    Llm.chatBackoff.max_elapsed_time = some 30000 ∧
    Llm.retryGo op k (n + 1) = Llm.retryGo op (k + 1) n ∧
    Llm.chatOperation (.networkError m) = .error (.http m) ∧
    Llm.classifyStatus 429 t = .rateLimited ∧
    Llm.classifyStatus 401 t = .api 401 "Invalid API key" ∧
    Llm.classifyStatus s t = .api s t := by
  refine ⟨rfl, rfl, rfl, ?_, rfl, ?_, ?_, ?_⟩
  · simp [Llm.retryGo, hop]
  · simp [Llm.classifyStatus]
  · simp [Llm.classifyStatus]
  · rw [Llm.classifyStatus, if_neg (by omega), if_neg (by omega)]

/-- C5 witness: the retry-policy theorem applied to a concrete failing
operation and a concrete 503. -/
theorem c5_retry_policy_witness :
    Llm.chatBackoff.initial_interval = 500 ∧
    Llm.chatBackoff.max_interval = 4000 ∧
    Llm.chatBackoff.max_elapsed_time = some 30000 ∧
    Llm.retryGo (fun _ => (.error .rateLimited : Except Llm.LlmError Unit)) 0 1 =
      Llm.retryGo (fun _ => .error .rateLimited) 1 0 ∧
    Llm.chatOperation (.networkError "connection refused") = .error (.http "connection refused") ∧
    Llm.classifyStatus 429 "slow down" = .rateLimited ∧
    Llm.classifyStatus 401 "slow down" = .api 401 "Invalid API key" ∧
    Llm.classifyStatus 503 "slow down" = .api 503 "slow down" :=
  c5_retry_policy (fun _ => .error .rateLimited) 0 0 .rateLimited rfl 503
    "slow down" "connection refused" (by decide)

/-- A healthy decoded response for the C5 counterexample. -/
def okRespC5 : Llm.OpenAIChatResponse :=
  { id := "chatcmpl-1", model := "m"
  , choices := [{ index := 0, message := { role := "assistant", content := "OK" }
                , finish_reason := "stop" }] }

/-- Transport behaviour for the C5 counterexample: a 401 on the first
attempt, success afterwards. -/
def attemptsC5 : Nat → Llm.HttpAttempt :=
  fun k => if k = 0 then .failure 401 "Unauthorized" else .success okRespC5

/-- C5 counterexample: the first attempt yields the 401 invalid-credentials
error, yet the call succeeds — the client retried after the 401, although the
claim says 401 is never retried (under no-retry the call would have returned
the 401 error). -/
theorem c5_counterexample :
    Llm.chatOperation (attemptsC5 0) = .error (.api 401 "Invalid API key") ∧
      Llm.chat "sk-key" attemptsC5 1 = .ok "OK" :=
  ⟨by rfl, by rfl⟩

/-! ## Claim C9: configuration defaults -/

/-- C9 (amended): when keys are absent the plan workflow's config builder
falls back to the empty string for provider_name, base_url and model, to 0.2
for temperature and 4000 for max_tokens; the migration seed rows carry
base_url https://openrouter.ai/api/v1, model z-ai/glm-4.7-flash and
max_tokens 2000. -/
theorem c9_config_fallbacks (parseJson : String → Option Json)
    (settings : List (String × String))
    (hb : settings.lookup "base_url" = none) (hm : settings.lookup "model" = none)
    (hp : settings.lookup "provider_name" = none) (ht : settings.lookup "temperature" = none)
    (hx : settings.lookup "max_tokens" = none) :
    (build_llm_config parseJson settings).base_url = "" ∧
    (build_llm_config parseJson settings).model = "" ∧
    (build_llm_config parseJson settings).provider_name = "" ∧
    (build_llm_config parseJson settings).temperature = 2 / 10 ∧
    (build_llm_config parseJson settings).max_tokens = 4000 ∧
    settingsSeed.lookup "base_url" = some "https://openrouter.ai/api/v1" ∧
    settingsSeed.lookup "model" = some "z-ai/glm-4.7-flash" ∧
    settingsSeed.lookup "max_tokens" = some "2000" := by
  refine ⟨?_, ?_, ?_, ?_, ?_, by rfl, by rfl, by rfl⟩ <;>
    simp [build_llm_config, hb, hm, hp, ht, hx]

/-- C9 witness: the fallback theorem applied to the empty settings table. -/
theorem c9_config_fallbacks_witness :
    (build_llm_config (fun _ => none) []).base_url = "" ∧
    (build_llm_config (fun _ => none) []).model = "" ∧
    (build_llm_config (fun _ => none) []).provider_name = "" ∧
    (build_llm_config (fun _ => none) []).temperature = 2 / 10 ∧
    (build_llm_config (fun _ => none) []).max_tokens = 4000 ∧
    settingsSeed.lookup "base_url" = some "https://openrouter.ai/api/v1" ∧
    settingsSeed.lookup "model" = some "z-ai/glm-4.7-flash" ∧
    settingsSeed.lookup "max_tokens" = some "2000" :=
  c9_config_fallbacks (fun _ => none) [] rfl rfl rfl rfl rfl

/-- C9 counterexample: neither consumer carries the defaults the claim
states — the seed rows point at openrouter.ai with a glm model, and the
builder's fallbacks are empty strings, not the openai.com endpoint or
gpt-4o. -/
theorem c9_counterexample :
    settingsSeed.lookup "base_url" ≠ some "https://api.openai.com/v1" ∧
    settingsSeed.lookup "model" ≠ some "gpt-4o" ∧
    (build_llm_config (fun _ => none) []).base_url ≠ "https://api.openai.com/v1" ∧
    (build_llm_config (fun _ => none) []).model ≠ "gpt-4o" := by
  refine ⟨?_, ?_, ?_, ?_⟩ <;> decide

/-! ## Claim C10: empty choices handling -/

/-- C10: both chat clients turn an empty choices array of a successful
response into the InvalidResponse "No choices in response" error, and extract
the first choice's message (content, and tool calls for the tool-calling
client) when choices is non-empty; end to end, a first-attempt success with
empty choices makes chat return that error. -/
theorem c10_choices_handling :
    (∀ resp : OpenAIChatResponse, resp.choices = [] →
      chat_with_tools resp = .error (.invalidResponse "No choices in response")) ∧
    (∀ (resp : OpenAIChatResponse) (choice : Choice) (rest : List Choice),
      resp.choices = choice :: rest →
      chat_with_tools resp =
        .ok { content := choice.message.content, tool_calls := choice.message.tool_calls }) ∧
    (∀ resp : Llm.OpenAIChatResponse, resp.choices = [] →
      Llm.extractContent resp = .error (.invalidResponse "No choices in response")) ∧
    (∀ (resp : Llm.OpenAIChatResponse) (choice : Llm.Choice) (rest : List Llm.Choice),
      resp.choices = choice :: rest →
      Llm.extractContent resp = .ok choice.message.content) ∧
    (∀ (api_key : String) (attempts : Nat → Llm.HttpAttempt) (maxRetries : Nat)
        (resp : Llm.OpenAIChatResponse),
      api_key ≠ "" → attempts 0 = .success resp → resp.choices = [] →
      Llm.chat api_key attempts maxRetries = .error (.invalidResponse "No choices in response")) := by
  refine ⟨?_, ?_, ?_, ?_, ?_⟩
  · intro resp h
    obtain ⟨i, mo, ch⟩ := resp
    simp only at h
    subst h
    rfl
  · intro resp choice rest h
    obtain ⟨i, mo, ch⟩ := resp
    simp only at h
    subst h
    rfl
  · intro resp h
    obtain ⟨i, mo, ch⟩ := resp
    simp only at h
    subst h
    rfl
  · intro resp choice rest h
    obtain ⟨i, mo, ch⟩ := resp
    simp only at h
    subst h
    rfl
  · intro api_key attempts maxRetries resp hkey hfirst hempty
    rw [Llm.chat, if_neg hkey]
    have hok : Llm.retryOperation maxRetries (fun k => Llm.chatOperation (attempts k)) = .ok resp := by
      apply retryGo_ok
      rw [hfirst]
      rfl
    rw [hok]
    obtain ⟨i, mo, ch⟩ := resp
    simp only at hempty
    subst hempty
    rfl

/-- Response with empty choices for the C10 witness. -/
def emptyRespC10 : Llm.OpenAIChatResponse := { id := "chatcmpl-2", model := "m", choices := [] }

/-- Tool-calling response with empty choices for the C10 witness. -/
def emptyToolRespC10 : OpenAIChatResponse := { id := "chatcmpl-3", model := "m", choices := [] }

/-- One-choice tool-calling response for the C10 witness. -/
def oneToolRespC10 : OpenAIChatResponse :=
  { id := "chatcmpl-4", model := "m"
  , choices := [{ index := 0
                , message := { role := "assistant", content := some "plan text"
                             , tool_call_id := none, tool_calls := none }
                , finish_reason := "stop" }] }

/-- C10 witness: the choices-handling theorem applied at concrete responses
for all five clauses. -/
theorem c10_choices_handling_witness :
    chat_with_tools emptyToolRespC10 = .error (.invalidResponse "No choices in response") ∧
    chat_with_tools oneToolRespC10 = .ok { content := some "plan text", tool_calls := none } ∧
    Llm.extractContent emptyRespC10 = .error (.invalidResponse "No choices in response") ∧
    Llm.extractContent okRespC5 = .ok "OK" ∧
    Llm.chat "sk-key" (fun _ => .success emptyRespC10) 3 =
      .error (.invalidResponse "No choices in response") := by
  refine ⟨?_, ?_, ?_, ?_, ?_⟩
  · exact c10_choices_handling.1 emptyToolRespC10 rfl
  · exact c10_choices_handling.2.1 oneToolRespC10 _ [] rfl
  · exact c10_choices_handling.2.2.1 emptyRespC10 rfl
  · exact c10_choices_handling.2.2.2.1 okRespC5 _ [] rfl
  · exact c10_choices_handling.2.2.2.2 "sk-key" (fun _ => .success emptyRespC10) 3
      emptyRespC10 (by decide) rfl rfl

/-! ## Loop invariant lemmas -/

namespace Plan

/-- The state carried out of runToolCalls, error or not. -/
def toolExitState : Except (PlanError × LoopState) LoopState → LoopState
  | .ok st => st
  | .error (_, st) => st

/-- The state carried out of planLoop, error or not. -/
def exitState : Except (PlanError × LoopState) (LoopState × Option String) → LoopState
  | .ok (st, _) => st
  | .error (_, st) => st

/-- The transformation the loop applies to the context right before each
provider call. -/
def applyCap (pre : List ChatMessage) : List ChatMessage :=
  if contextSize pre > MAX_CONTEXT_CHARS then truncate_messages pre MAX_CONTEXT_CHARS else pre

theorem capState_calls (st : LoopState) : (capState st).calls = st.calls := by
  unfold capState; split <;> rfl

theorem capState_count (st : LoopState) :
    (capState st).tool_calls_count = st.tool_calls_count := by
  unfold capState; split <;> rfl

theorem capState_log (st : LoopState) : (capState st).log = st.log := by
  unfold capState; split <;> rfl

theorem capState_messages (st : LoopState) : (capState st).messages = applyCap st.messages := by
  unfold capState applyCap; split <;> rfl

theorem capState_truncated (st : LoopState) :
    (capState st).truncated =
      if contextSize st.messages > MAX_CONTEXT_CHARS then true else st.truncated := by
  unfold capState; split <;> rfl

theorem logAssistant_calls (r : String) (c : Option String) (st : LoopState) :
    (logAssistant r c st).calls = st.calls := by
  cases c <;> rfl

theorem logAssistant_count (r : String) (c : Option String) (st : LoopState) :
    (logAssistant r c st).tool_calls_count = st.tool_calls_count := by
  cases c <;> rfl

theorem logAssistant_truncated (r : String) (c : Option String) (st : LoopState) :
    (logAssistant r c st).truncated = st.truncated := by
  cases c <;> rfl

theorem logAssistant_log_runid (r : String) (c : Option String) (st : LoopState)
    (h : ∀ row ∈ st.log, row.run_id = r) :
    ∀ row ∈ (logAssistant r c st).log, row.run_id = r := by
  cases c with
  | none => exact h
  | some s =>
    intro row hrow
    simp only [logAssistant, List.mem_append, List.mem_singleton] at hrow
    rcases hrow with hrow | hrow
    · exact h row hrow
    · subst hrow; rfl

theorem runToolCalls_calls (env : PlanEnv) (r p : String) (tcs : List ToolCall)
    (st : LoopState) :
    (toolExitState (runToolCalls env r p tcs st)).calls = st.calls := by
  induction tcs generalizing st with
  | nil => rfl
  | cons tc rest ih =>
    rw [runToolCalls]
    cases hexec : execute_single_tool env p tc with
    | error e => rfl
    | ok tool_result => exact ih _

theorem runToolCalls_truncated (env : PlanEnv) (r p : String) (tcs : List ToolCall)
    (st : LoopState) :
    (toolExitState (runToolCalls env r p tcs st)).truncated = st.truncated := by
  induction tcs generalizing st with
  | nil => rfl
  | cons tc rest ih =>
    rw [runToolCalls]
    cases hexec : execute_single_tool env p tc with
    | error e => rfl
    | ok tool_result => exact ih _

theorem runToolCalls_count (env : PlanEnv) (r p : String) (tcs : List ToolCall)
    (st : LoopState) :
    (toolExitState (runToolCalls env r p tcs st)).tool_calls_count = st.tool_calls_count := by
  induction tcs generalizing st with
  | nil => rfl
  | cons tc rest ih =>
    rw [runToolCalls]
    cases hexec : execute_single_tool env p tc with
    | error e => rfl
    | ok tool_result => exact ih _

theorem runToolCalls_log_runid (env : PlanEnv) (r p : String) (tcs : List ToolCall)
    (st : LoopState) (h : ∀ row ∈ st.log, row.run_id = r) :
    ∀ row ∈ (toolExitState (runToolCalls env r p tcs st)).log, row.run_id = r := by
  induction tcs generalizing st with
  | nil => exact h
  | cons tc rest ih =>
    rw [runToolCalls]
    cases hexec : execute_single_tool env p tc with
    | error e => exact h
    | ok tool_result =>
      apply ih
      intro row hrow
      simp only [List.mem_append, List.mem_singleton] at hrow
      rcases hrow with hrow | hrow
      · exact h row hrow
      · subst hrow; rfl

/-- Ghost facts about the tool-execution tail: state fields other than
messages and log are preserved, the log keeps its run id, and on a
continuing outcome the counter has grown by the turn's call count. -/
theorem afterTools_ghost (env : PlanEnv) (r p : String) (response : LlmResponse)
    (tool_calls : List ToolCall) (st3 : LoopState) :
    (stepState (afterTools env r p response tool_calls st3)).calls = st3.calls ∧
    (stepState (afterTools env r p response tool_calls st3)).truncated = st3.truncated ∧
    (stepState (afterTools env r p response tool_calls st3)).tool_calls_count =
        st3.tool_calls_count + tool_calls.length ∧
    ((∀ row ∈ st3.log, row.run_id = r) →
        ∀ row ∈ (stepState (afterTools env r p response tool_calls st3)).log, row.run_id = r) ∧
    (∀ st', afterTools env r p response tool_calls st3 = .next st' →
        st'.tool_calls_count = st3.tool_calls_count + tool_calls.length) := by
  have hc := runToolCalls_calls env r p tool_calls
    { st3 with tool_calls_count := st3.tool_calls_count + tool_calls.length }
  have ht := runToolCalls_truncated env r p tool_calls
    { st3 with tool_calls_count := st3.tool_calls_count + tool_calls.length }
  have hn := runToolCalls_count env r p tool_calls
    { st3 with tool_calls_count := st3.tool_calls_count + tool_calls.length }
  have hl := runToolCalls_log_runid env r p tool_calls
    { st3 with tool_calls_count := st3.tool_calls_count + tool_calls.length }
  rw [afterTools]
  cases hrun : runToolCalls env r p tool_calls
      { st3 with tool_calls_count := st3.tool_calls_count + tool_calls.length } with
  | error est =>
    obtain ⟨e, stE⟩ := est
    rw [hrun] at hc ht hn hl
    exact ⟨hc, ht, hn, fun hbase => hl hbase, fun st' hnext => StepOut.noConfusion hnext⟩
  | ok st5 =>
    rw [hrun] at hc ht hn hl
    refine ⟨hc, ht, hn, fun hbase => hl hbase, ?_⟩
    intro st' hnext
    cases hnext
    exact hn

/-- Ghost facts about the branch on tool_calls, for an arbitrary response
and post-persist state. -/
theorem stepSwitch_ghost (env : PlanEnv) (r p : String) (response : LlmResponse)
    (st3 : LoopState) :
    (stepState (stepSwitch env r p response st3)).calls = st3.calls ∧
    (stepState (stepSwitch env r p response st3)).truncated = st3.truncated ∧
    st3.tool_calls_count ≤ (stepState (stepSwitch env r p response st3)).tool_calls_count ∧
    ((∀ row ∈ st3.log, row.run_id = r) →
        ∀ row ∈ (stepState (stepSwitch env r p response st3)).log, row.run_id = r) ∧
    (∀ st', stepSwitch env r p response st3 = .next st' →
        st3.tool_calls_count + 1 ≤ st'.tool_calls_count) := by
  obtain ⟨content, tcs⟩ := response
  cases tcs with
  | none =>
    simp only [stepSwitch]
    exact ⟨rfl, rfl, Nat.le_refl _, fun h => h, fun st' hnext => StepOut.noConfusion hnext⟩
  | some tool_calls =>
    simp only [stepSwitch]
    cases hemp : tool_calls.isEmpty with
    | true =>
      rw [if_pos rfl]
      exact ⟨rfl, rfl, Nat.le_refl _, fun h => h, fun st' hnext => StepOut.noConfusion hnext⟩
    | false =>
      rw [if_neg (by simp)]
      have hlen : 1 ≤ tool_calls.length := by
        cases tool_calls with
        | nil => simp at hemp
        | cons a l => simp
      obtain ⟨hc, ht, hn, hl, hnext⟩ :=
        afterTools_ghost env r p { content := content, tool_calls := some tool_calls }
          tool_calls st3
      refine ⟨hc, ht, ?_, hl, ?_⟩
      · rw [hn]; omega
      · intro st' h
        rw [hnext st' h]; omega

/-- All ghost facts about one iteration at once: the recorded request pair,
the truncated flag, monotonicity of the tool-call counter, preservation of
the log's run id, and a strict counter increase on every continuing
iteration. -/
theorem planStep_ghost (env : PlanEnv) (r p : String) (st : LoopState) :
    (stepState (planStep env r p st)).calls =
        st.calls ++ [(st.messages, applyCap st.messages)] ∧
    (stepState (planStep env r p st)).truncated =
        (if contextSize st.messages > MAX_CONTEXT_CHARS then true else st.truncated) ∧
    st.tool_calls_count ≤ (stepState (planStep env r p st)).tool_calls_count ∧
    ((∀ row ∈ st.log, row.run_id = r) →
        ∀ row ∈ (stepState (planStep env r p st)).log, row.run_id = r) ∧
    (∀ st', planStep env r p st = .next st' →
        st.tool_calls_count + 1 ≤ st'.tool_calls_count) := by
  have hcalls3 : (logAssistant r (env.llm (capState st).calls.length).content
      (recordCall st.messages (capState st))).calls =
      st.calls ++ [(st.messages, applyCap st.messages)] := by
    rw [logAssistant_calls]
    show (capState st).calls ++ [(st.messages, (capState st).messages)] = _
    rw [capState_calls, capState_messages]
  have htr3 : (logAssistant r (env.llm (capState st).calls.length).content
      (recordCall st.messages (capState st))).truncated =
      (if contextSize st.messages > MAX_CONTEXT_CHARS then true else st.truncated) := by
    rw [logAssistant_truncated]
    show (capState st).truncated = _
    exact capState_truncated st
  have hcnt3 : (logAssistant r (env.llm (capState st).calls.length).content
      (recordCall st.messages (capState st))).tool_calls_count = st.tool_calls_count := by
    rw [logAssistant_count]
    show (capState st).tool_calls_count = _
    exact capState_count st
  have hlog3 : (∀ row ∈ st.log, row.run_id = r) →
      ∀ row ∈ (logAssistant r (env.llm (capState st).calls.length).content
        (recordCall st.messages (capState st))).log, row.run_id = r := by
    intro hbase
    apply logAssistant_log_runid
    show ∀ row ∈ (capState st).log, row.run_id = r
    rw [capState_log]
    exact hbase
  obtain ⟨hc, ht, hn, hl, hnext⟩ :=
    stepSwitch_ghost env r p (env.llm (capState st).calls.length)
      (logAssistant r (env.llm (capState st).calls.length).content
        (recordCall st.messages (capState st)))
  refine ⟨hc.trans hcalls3, ht.trans htr3, ?_, ?_, ?_⟩
  · rw [← hcnt3]; exact hn
  · intro hbase
    exact hl (hlog3 hbase)
  · intro st' h
    have hstep := hnext st' h
    rw [hcnt3] at hstep
    exact hstep

/-- Each iteration issues exactly one provider request, so fuel bounds the
number of requests, on aborted runs as well. -/
theorem planLoop_calls_len (env : PlanEnv) (r p : String) (fuel : Nat) (st : LoopState) :
    (exitState (planLoop env r p fuel st)).calls.length ≤ st.calls.length + fuel := by
  induction fuel generalizing st with
  | zero => simp [planLoop, exitState]
  | succ n ih =>
    rw [planLoop]
    cases hstep : planStep env r p st with
    | done st' plan =>
      have hc := (planStep_ghost env r p st).1
      rw [hstep] at hc
      simp only [stepState] at hc
      show st'.calls.length ≤ st.calls.length + (n + 1)
      rw [hc]
      simp
    | fail e st' =>
      have hc := (planStep_ghost env r p st).1
      rw [hstep] at hc
      simp only [stepState] at hc
      show st'.calls.length ≤ st.calls.length + (n + 1)
      rw [hc]
      simp
    | next st' =>
      have hc := (planStep_ghost env r p st).1
      rw [hstep] at hc
      simp only [stepState] at hc
      show (exitState (planLoop env r p n st')).calls.length ≤ st.calls.length + (n + 1)
      have hlen : st'.calls.length = st.calls.length + 1 := by rw [hc]; simp
      have := ih st'
      omega

/-- A run that exhausts its fuel has made at least one tool call per
iteration. -/
theorem planLoop_exhaust_count (env : PlanEnv) (r p : String) (fuel : Nat)
    (st st' : LoopState) (h : planLoop env r p fuel st = .ok (st', none)) :
    st.tool_calls_count + fuel ≤ st'.tool_calls_count := by
  induction fuel generalizing st with
  | zero =>
    rw [planLoop] at h
    cases h
    omega
  | succ n ih =>
    rw [planLoop] at h
    cases hstep : planStep env r p st with
    | done st2 plan => rw [hstep] at h; simp at h
    | fail e st2 => rw [hstep] at h; simp at h
    | next st2 =>
      rw [hstep] at h
      have hcnt := (planStep_ghost env r p st).2.2.2.2 st2 hstep
      have := ih st2 h
      omega

/-- Every recorded request pair relates sent to pre by the context-cap
transformation. -/
theorem planLoop_calls_inv (env : PlanEnv) (r p : String) (fuel : Nat) (st : LoopState)
    (h0 : ∀ pr ∈ st.calls, pr.2 = applyCap pr.1) :
    ∀ pr ∈ (exitState (planLoop env r p fuel st)).calls, pr.2 = applyCap pr.1 := by
  induction fuel generalizing st with
  | zero => exact h0
  | succ n ih =>
    have hc := (planStep_ghost env r p st).1
    have hnew : ∀ pr ∈ (stepState (planStep env r p st)).calls, pr.2 = applyCap pr.1 := by
      rw [hc]
      intro pr hpr
      rcases List.mem_append.1 hpr with hpr | hpr
      · exact h0 pr hpr
      · rw [List.mem_singleton] at hpr
        subst hpr
        rfl
    rw [planLoop]
    cases hstep : planStep env r p st with
    | done st' plan =>
      rw [hstep] at hnew
      exact hnew
    | fail e st' =>
      rw [hstep] at hnew
      exact hnew
    | next st' =>
      rw [hstep] at hnew
      exact ih st' hnew

/-- Once any recorded request was oversized, the truncated flag is set. -/
theorem planLoop_trunc_inv (env : PlanEnv) (r p : String) (fuel : Nat) (st : LoopState)
    (h0 : (∃ pr ∈ st.calls, contextSize pr.1 > MAX_CONTEXT_CHARS) → st.truncated = true) :
    (∃ pr ∈ (exitState (planLoop env r p fuel st)).calls,
        contextSize pr.1 > MAX_CONTEXT_CHARS) →
      (exitState (planLoop env r p fuel st)).truncated = true := by
  induction fuel generalizing st with
  | zero => exact h0
  | succ n ih =>
    have hc := (planStep_ghost env r p st).1
    have ht := (planStep_ghost env r p st).2.1
    have hnew : (∃ pr ∈ (stepState (planStep env r p st)).calls,
        contextSize pr.1 > MAX_CONTEXT_CHARS) →
        (stepState (planStep env r p st)).truncated = true := by
      intro hex
      rw [hc] at hex
      rw [ht]
      obtain ⟨pr, hpr, hover⟩ := hex
      rcases List.mem_append.1 hpr with hpr | hpr
      · have := h0 ⟨pr, hpr, hover⟩
        split
        · rfl
        · exact this
      · rw [List.mem_singleton] at hpr
        subst hpr
        rw [if_pos hover]
    rw [planLoop]
    cases hstep : planStep env r p st with
    | done st' plan =>
      rw [hstep] at hnew
      exact hnew
    | fail e st' =>
      rw [hstep] at hnew
      exact hnew
    | next st' =>
      rw [hstep] at hnew
      exact ih st' hnew

/-- Every persisted row carries the run id the loop was given. -/
theorem planLoop_log_inv (env : PlanEnv) (r p : String) (fuel : Nat) (st : LoopState)
    (h0 : ∀ row ∈ st.log, row.run_id = r) :
    ∀ row ∈ (exitState (planLoop env r p fuel st)).log, row.run_id = r := by
  induction fuel generalizing st with
  | zero => exact h0
  | succ n ih =>
    have hl := (planStep_ghost env r p st).2.2.2.1 h0
    rw [planLoop]
    cases hstep : planStep env r p st with
    | done st' plan =>
      rw [hstep] at hl
      exact hl
    | fail e st' =>
      rw [hstep] at hl
      exact hl
    | next st' =>
      rw [hstep] at hl
      exact ih st' hl

/-- The post-loop tail on an exhausted run with the cap reached: note
appended to the empty content, truncated forced, artifact emitted. -/
theorem finishPlan_exhausted (run : RunRow) (task : Task) (st : LoopState)
    (hcnt : MAX_TOOL_ITERATIONS ≤ st.tool_calls_count) :
    (finishPlan run task st none).result.plan_md = truncationNote "" ∧
    (finishPlan run task st none).result.truncated = true ∧
    (finishPlan run task st none).artifact = (task.id, "plan_md", truncationNote "") := by
  rw [finishPlan]
  rw [if_pos (⟨hcnt, rfl⟩ : MAX_TOOL_ITERATIONS ≤ st.tool_calls_count ∧
    ((none : Option String).getD "") = "")]
  exact ⟨rfl, rfl, rfl⟩

/-- A set truncated flag survives the post-loop tail. -/
theorem finishPlan_truncated_mono (run : RunRow) (task : Task) (st : LoopState)
    (exit : Option String) (h : st.truncated = true) :
    (finishPlan run task st exit).result.truncated = true := by
  rw [finishPlan]
  by_cases hcond : MAX_TOOL_ITERATIONS ≤ st.tool_calls_count ∧ exit.getD "" = ""
  · rw [if_pos hcond]
  · rw [if_neg hcond]
    exact h

/-! ## Claim C1: iteration cap -/

/-- C1: the loop issues at most MAX_TOOL_ITERATIONS = 12 provider requests —
also on aborted runs — and when the iteration budget is exhausted without a
final answer the workflow still emits the plan artifact, with the truncation
note appended to the (empty) final content, and reports truncated = true. -/
theorem c1_iteration_cap (env : PlanEnv) (project : Project) (task : Task) :
    (exitState (planLoop env (create_run env task.id "plan").id project.id
        MAX_TOOL_ITERATIONS (initState task project))).calls.length ≤ MAX_TOOL_ITERATIONS ∧
    (∀ o, generate_plan env project task = .ok o →
      o.calls.length ≤ MAX_TOOL_ITERATIONS ∧
      (o.exhausted = true →
        o.result.truncated = true ∧
        o.result.plan_md = truncationNote "" ∧
        o.artifact = (task.id, "plan_md", truncationNote ""))) := by
  have hlen := planLoop_calls_len env (create_run env task.id "plan").id project.id
      MAX_TOOL_ITERATIONS (initState task project)
  constructor
  · simpa [initState] using hlen
  · intro o h
    rw [generate_plan] at h
    cases hkey : env.apiKeyVar with
    | none => rw [hkey] at h; simp at h
    | some key =>
      rw [hkey] at h
      cases hloop : planLoop env (create_run env task.id "plan").id project.id
          MAX_TOOL_ITERATIONS (initState task project) with
      | error epair =>
        obtain ⟨e, stE⟩ := epair
        rw [hloop] at h
        simp at h
      | ok pair =>
        obtain ⟨st, exit⟩ := pair
        rw [hloop] at h
        simp only at h
        have h2 : finishPlan (create_run env task.id "plan") task st exit = o :=
          Except.ok.inj h
        subst h2
        constructor
        · show st.calls.length ≤ MAX_TOOL_ITERATIONS
          rw [hloop] at hlen
          simpa [exitState, initState] using hlen
        · intro hex
          have hnone : exit = none := by
            have hisnone : exit.isNone = true := hex
            cases exit with
            | none => rfl
            | some s => simp at hisnone
          subst hnone
          have hcnt : MAX_TOOL_ITERATIONS ≤ st.tool_calls_count := by
            have hx := planLoop_exhaust_count env (create_run env task.id "plan").id
              project.id MAX_TOOL_ITERATIONS (initState task project) st hloop
            simpa [initState] using hx
          obtain ⟨hplan, htrunc, hart⟩ :=
            finishPlan_exhausted (create_run env task.id "plan") task st hcnt
          exact ⟨htrunc, hplan, hart⟩

/-- A provider stub that always asks for one more tool call. -/
def toolTurnC1 : LlmResponse :=
  { content := some "exploring"
  , tool_calls := some [{ id := "call_a", function := { name := "list_files", arguments := "\x7b\x7d" } }] }

/-- Environment for the C1 witness: the model never stops calling tools, so
the run exhausts its iteration budget. -/
def envC1 : PlanEnv where
  llm := fun _ => toolTurnC1
  parseArgs := fun _ => .ok (.obj [])
  execTool := fun _ _ => .ok (.obj [("files", .arr [])])
  apiKeyVar := some "sk-test"
  settings := settingsSeed
  runId := "run-c1"
  startedAt := "2026-03-01T00:00:00Z"

/-- Project for the C1 witness. -/
def projC1 : Project := { id := "p-c1", repo_path := "/repo" }

/-- Task for the C1 witness. -/
def taskC1 : Task := { id := "t-c1", title := "Demo task" }

/-- Junk outcome used only to peel the Except in witness statements. -/
def junkOutcome : GeneratePlanOutcome :=
  { result := { run_id := "", plan_md := "", tool_calls_count := 0, truncated := false }
  , run := { id := "", task_id := "", run_type := "", provider := none, model := none
           , started_at := "", ended_at := none }
  , artifact := ("", "", ""), log := [], calls := [], exhausted := false }

/-- The concrete outcome of the C1 witness run. -/
def outC1 : GeneratePlanOutcome :=
  (generate_plan envC1 projC1 taskC1).toOption.getD junkOutcome

set_option maxRecDepth 100000 in
/-- C1 witness: on the never-stopping stub the run makes at most 12 requests
and, being exhausted, carries the truncation note with truncated = true. -/
theorem c1_iteration_cap_witness :
    outC1.calls.length ≤ MAX_TOOL_ITERATIONS ∧
    (outC1.exhausted = true →
      outC1.result.truncated = true ∧
      outC1.result.plan_md = truncationNote "" ∧
      outC1.artifact = (taskC1.id, "plan_md", truncationNote "")) :=
  (c1_iteration_cap envC1 projC1 taskC1).2 outC1 (by rfl)

/-! ## Claim C3: context cap -/

/-- Modelled from the spec: prune to exactly the system message (always
kept, as the first element) plus the last six messages. -/
def specPrune (msgs : List ChatMessage) : List ChatMessage :=
  (match msgs.head? with | some sys => [sys] | none => []) ++ lastN 6 msgs

/-- Lists shorter than three messages pass through truncate_messages
unchanged. -/
theorem truncate_messages_short (msgs : List ChatMessage) (n : Nat)
    (h : msgs.length < 3) : truncate_messages msgs n = msgs := by
  rw [truncate_messages, if_pos h]

/-- On lists of at least three messages, truncate_messages is exactly the
spec's prune (first message plus last six — which duplicates the system
message whenever the list has fewer than seven messages). -/
theorem truncate_messages_long (msgs : List ChatMessage) (n : Nat)
    (h : ¬ msgs.length < 3) : truncate_messages msgs n = specPrune msgs := by
  rw [truncate_messages, if_neg h]
  rfl

/-- C3 (amended): before every provider call the sent list is the pre-check
list passed through the context cap — truncate_messages when the byte sum
exceeds 100000, unchanged otherwise — and any oversized call forces
truncated = true in the final result; truncate_messages itself returns lists
shorter than three messages unchanged and equals first-plus-last-six on
longer ones. -/
theorem c3_context_cap (env : PlanEnv) (project : Project) (task : Task)
    (o : GeneratePlanOutcome) (h : generate_plan env project task = .ok o) :
    (∀ pr ∈ o.calls, pr.2 = applyCap pr.1) ∧
    ((∃ pr ∈ o.calls, contextSize pr.1 > MAX_CONTEXT_CHARS) → o.result.truncated = true) ∧
    (∀ (msgs : List ChatMessage), contextSize msgs > MAX_CONTEXT_CHARS →
      applyCap msgs = truncate_messages msgs MAX_CONTEXT_CHARS) ∧
    (∀ (msgs : List ChatMessage) (n : Nat), msgs.length < 3 →
      truncate_messages msgs n = msgs) ∧
    (∀ (msgs : List ChatMessage) (n : Nat), ¬ msgs.length < 3 →
      truncate_messages msgs n = specPrune msgs) := by
  rw [generate_plan] at h
  cases hkey : env.apiKeyVar with
  | none => rw [hkey] at h; simp at h
  | some key =>
    rw [hkey] at h
    cases hloop : planLoop env (create_run env task.id "plan").id project.id
        MAX_TOOL_ITERATIONS (initState task project) with
    | error epair =>
      obtain ⟨e, stE⟩ := epair
      rw [hloop] at h
      simp at h
    | ok pair =>
      obtain ⟨st, exit⟩ := pair
      rw [hloop] at h
      simp only at h
      have h2 : finishPlan (create_run env task.id "plan") task st exit = o :=
        Except.ok.inj h
      subst h2
      refine ⟨?_, ?_, ?_, truncate_messages_short, truncate_messages_long⟩
      · show ∀ pr ∈ st.calls, pr.2 = applyCap pr.1
        have := planLoop_calls_inv env (create_run env task.id "plan").id project.id
          MAX_TOOL_ITERATIONS (initState task project) (by intro pr hpr; simp [initState] at hpr)
        rw [hloop] at this
        exact this
      · intro hex
        have hinv := planLoop_trunc_inv env (create_run env task.id "plan").id project.id
          MAX_TOOL_ITERATIONS (initState task project)
          (by intro hx; obtain ⟨pr, hpr, _⟩ := hx; simp [initState] at hpr)
        rw [hloop] at hinv
        exact finishPlan_truncated_mono _ task st exit (hinv hex)
      · intro msgs hover
        rw [applyCap, if_pos hover]

/-- Environment for the C3 witness: a single content-only turn. -/
def envC3 : PlanEnv where
  llm := fun _ => { content := some "# Implementation Plan: small", tool_calls := none }
  parseArgs := fun _ => .ok (.obj [])
  execTool := fun _ _ => .ok (.obj [])
  apiKeyVar := some "sk-test"
  settings := settingsSeed
  runId := "run-c3"
  startedAt := "2026-03-02T00:00:00Z"

/-- Project for the C3 witness. -/
def projC3 : Project := { id := "p-c3", repo_path := "/repo" }

/-- Task for the C3 witness. -/
def taskC3 : Task := { id := "t-c3", title := "Small task" }

/-- The concrete outcome of the C3 witness run. -/
def outC3 : GeneratePlanOutcome :=
  (generate_plan envC3 projC3 taskC3).toOption.getD junkOutcome

set_option maxRecDepth 100000 in
/-- C3 witness: the context-cap theorem applied to a concrete run. -/
theorem c3_context_cap_witness :
    (∀ pr ∈ outC3.calls, pr.2 = applyCap pr.1) ∧
    ((∃ pr ∈ outC3.calls, contextSize pr.1 > MAX_CONTEXT_CHARS) →
      outC3.result.truncated = true) ∧
    (∀ (msgs : List ChatMessage), contextSize msgs > MAX_CONTEXT_CHARS →
      applyCap msgs = truncate_messages msgs MAX_CONTEXT_CHARS) ∧
    (∀ (msgs : List ChatMessage) (n : Nat), msgs.length < 3 →
      truncate_messages msgs n = msgs) ∧
    (∀ (msgs : List ChatMessage) (n : Nat), ¬ msgs.length < 3 →
      truncate_messages msgs n = specPrune msgs) :=
  c3_context_cap envC3 projC3 taskC3 outC3 (by rfl)

/-- A 60000-byte content string. -/
def bigA : String := String.mk (List.replicate 60000 'a')

/-- Oversized system seed message. -/
def sysBigC3 : ChatMessage :=
  { role := "system", content := some bigA, tool_call_id := none, tool_calls := none }

/-- Oversized user seed message. -/
def userBigC3 : ChatMessage :=
  { role := "user", content := some bigA, tool_call_id := none, tool_calls := none }

/-- An oversized two-message context of the exact seed shape the workflow
builds (system then user). -/
def preC3 : List ChatMessage := [sysBigC3, userBigC3]

/-- C3 counterexample: a context over the 100000-byte cap whose message list
is shorter than three entries is sent unchanged — it is not pruned to the
system message plus the last six as the claim states (and the spec-shaped
prune would even duplicate the system message here). -/
theorem c3_counterexample :
    contextSize preC3 > MAX_CONTEXT_CHARS ∧
    applyCap preC3 = preC3 ∧
    specPrune preC3 = [sysBigC3, sysBigC3, userBigC3] ∧
    applyCap preC3 ≠ specPrune preC3 := by
  have hb : bigA.utf8ByteSize = 60000 := by
    show (String.mk (List.replicate 60000 'a')).utf8ByteSize = 60000
    rw [utf8ByteSize_replicate]
    decide
  have hsize : contextSize preC3 = 120000 := by
    simp [contextSize, preC3, contentLen, sysBigC3, userBigC3, hb]
  have hover : contextSize preC3 > MAX_CONTEXT_CHARS := by
    rw [hsize]
    decide
  have hshort : preC3.length < 3 := by simp [preC3]
  have happly : applyCap preC3 = preC3 := by
    rw [applyCap, if_pos hover]
    exact truncate_messages_short _ _ hshort
  have hspec : specPrune preC3 = [sysBigC3, sysBigC3, userBigC3] := rfl
  refine ⟨hover, happly, hspec, ?_⟩
  intro heq
  rw [happly, hspec] at heq
  have hlen := congrArg List.length heq
  simp [preC3] at hlen

/-! ## Claim C4: tool responses must follow the assistant message -/

/-- Tool-call ids answered before the next assistant message. -/
def nextToolIds (msgs : List ChatMessage) : List String :=
  (msgs.takeWhile (fun m => m.role ≠ "assistant")).filterMap
    (fun m => if m.role = "tool" then m.tool_call_id else none)

/-- Modelled from the spec (data-model invariant 3): every assistant message
carrying tool_calls is followed, before the next assistant message, by
exactly the matching tool messages, in order. -/
def assistantToolPairing : List ChatMessage → Bool
  | [] => true
  | m :: rest =>
    (if m.role = "assistant" then
      match m.tool_calls with
      | some tcs => decide (nextToolIds rest = tcs.map (fun tc => tc.id))
      | none => true
    else true) && assistantToolPairing rest

/-- The single tool call of the C4 failing input. -/
def toolCallC4 : ToolCall :=
  { id := "call_1", function := { name := "list_files", arguments := "\x7b\x7d" } }

/-- Environment for the C4 failing input: one tool-call turn, then a final
content turn. -/
def envC4 : PlanEnv where
  llm := fun k =>
    if k = 0 then { content := none, tool_calls := some [toolCallC4] }
    else { content := some "# Implementation Plan: Demo", tool_calls := none }
  parseArgs := fun _ => .ok (.obj [])
  execTool := fun _ _ => .ok (.obj [("files", .arr [.str "README.md"]), ("truncated", .bool false)])
  apiKeyVar := some "sk-test"
  settings := settingsSeed
  runId := "run-c4"
  startedAt := "2026-03-03T00:00:00Z"

/-- Project for the C4 failing input. -/
def projC4 : Project := { id := "p-c4", repo_path := "/repo" }

/-- Task for the C4 failing input. -/
def taskC4 : Task := { id := "t-c4", title := "Demo" }

/-- The tool message the loop appends for the C4 tool call. -/
def toolMsgC4 : ChatMessage :=
  { role := "tool"
  , content := some (jsonToString (.obj [("files", .arr [.str "README.md"]), ("truncated", .bool false)]))
  , tool_call_id := some "call_1", tool_calls := none }

/-- The assistant message carrying the C4 tool call. -/
def asstMsgC4 : ChatMessage :=
  { role := "assistant", content := none, tool_call_id := none, tool_calls := some [toolCallC4] }

/-- The in-memory context the code sends on the second request: the tool
message comes before the assistant message that requested it. -/
def ctx2C4 : List ChatMessage := build_initial_messages taskC4 projC4 ++ [toolMsgC4, asstMsgC4]

/-- The concrete outcome of the C4 failing run. -/
def outC4 : GeneratePlanOutcome :=
  (generate_plan envC4 projC4 taskC4).toOption.getD junkOutcome

set_option maxRecDepth 100000 in
/-- C4: evaluating the workflow at the failing input.  The second provider
request is sent the context system, user, tool, assistant — the tool
response precedes the assistant message carrying its tool_call, so the
pairing invariant fails on what the provider observes; with the two
messages swapped (assistant first, as the spec requires) the same checker
accepts the context. -/
theorem c4_tool_order_bug :
    generate_plan envC4 projC4 taskC4 = .ok outC4 ∧
    outC4.calls.map Prod.snd = [build_initial_messages taskC4 projC4, ctx2C4] ∧
    assistantToolPairing ctx2C4 = false ∧
    assistantToolPairing (build_initial_messages taskC4 projC4 ++ [asstMsgC4, toolMsgC4]) = true := by
  refine ⟨by rfl, by rfl, ?_, ?_⟩
  · decide
  · decide

/-! ## Claim C6: tool failures as error payloads -/

/-- C6 (amended): a tool-execution failure is serialised into an error
envelope returned as an ordinary tool payload, and a whole turn of calls
whose arguments parse runs to completion — the loop continues; but a
tool-call whose arguments fail to parse makes execute_single_tool return an
INVALID_ARGS PlanError, which aborts the run. -/
theorem c6_tool_error_envelope (env : PlanEnv) (project_id : String) (tool_call : ToolCall) :
    (∀ e, env.parseArgs tool_call.function.arguments = .error e →
      execute_single_tool env project_id tool_call =
        .error { code := "INVALID_ARGS", message := "Failed to parse tool args: " ++ e }) ∧
    (∀ args e, env.parseArgs tool_call.function.arguments = .ok args →
      env.execTool tool_call.function.name (argsWithProject args project_id) = .error e →
      execute_single_tool env project_id tool_call =
        .ok (jsonToString (.obj [("error", .str e)]))) ∧
    (∀ (run_id : String) (tcs : List ToolCall) (st : LoopState),
      (∀ tc ∈ tcs, ∃ a, env.parseArgs tc.function.arguments = .ok a) →
      ∃ st', runToolCalls env run_id project_id tcs st = .ok st') := by
  refine ⟨?_, ?_, ?_⟩
  · intro e he
    rw [execute_single_tool, he]
  · intro args e hargs hexec
    rw [execute_single_tool, hargs]
    simp only
    rw [hexec]
  · intro run_id tcs
    induction tcs with
    | nil => exact fun st h => ⟨st, rfl⟩
    | cons tc rest ih =>
      intro st h
      obtain ⟨a, ha⟩ := h tc (List.mem_cons_self tc rest)
      have hok : ∃ s, execute_single_tool env project_id tc = .ok s := by
        rw [execute_single_tool, ha]
        simp only
        cases env.execTool tc.function.name (argsWithProject a project_id) with
        | ok v => exact ⟨_, rfl⟩
        | error e2 => exact ⟨_, rfl⟩
      obtain ⟨s, hs⟩ := hok
      rw [runToolCalls, hs]
      exact ih _ (fun tc2 hm => h tc2 (List.mem_cons_of_mem _ hm))

/-- Environment for the C6 counterexample: the model sends unparseable tool
arguments (serde_json fails on the text oops). -/
def envC6 : PlanEnv where
  llm := fun _ =>
    { content := none
    , tool_calls := some [{ id := "call_9", function := { name := "read_file", arguments := "oops" } }] }
  parseArgs := fun s =>
    if s = "oops" then .error "expected value at line 1 column 1" else .ok (.obj [])
  execTool := fun _ _ => .ok (.obj [])
  apiKeyVar := some "sk-test"
  settings := settingsSeed
  runId := "run-c6"
  startedAt := "2026-03-04T00:00:00Z"

/-- Project for the C6 counterexample. -/
def projC6 : Project := { id := "p-c6", repo_path := "/repo" }

/-- Task for the C6 counterexample. -/
def taskC6 : Task := { id := "t-c6", title := "Demo" }

/-- An environment whose tool executor fails (for the C6 witness). -/
def envC6err : PlanEnv where
  llm := fun _ => { content := some "x", tool_calls := none }
  parseArgs := fun _ => .ok (.obj [])
  execTool := fun _ _ => .error "file not found"
  apiKeyVar := some "sk-test"
  settings := settingsSeed
  runId := "run-c6e"
  startedAt := "2026-03-04T00:00:00Z"

/-- The tool call used by the C6 witness. -/
def toolCallC6 : ToolCall :=
  { id := "call_6", function := { name := "read_file", arguments := "\x7b\x7d" } }

set_option maxRecDepth 100000 in
/-- C6 counterexample: with unparseable tool arguments the whole run aborts
with an INVALID_ARGS PlanError — the failure is not converted into an error
payload and the loop does not continue. -/
theorem c6_counterexample :
    generate_plan envC6 projC6 taskC6 =
      .error { code := "INVALID_ARGS"
             , message := "Failed to parse tool args: expected value at line 1 column 1" } := by
  rfl

/-- C6 witness: the envelope theorem applied at concrete inputs — the parse
failure surfacing as the INVALID_ARGS error, the execution failure as an
error payload, and a parsing turn that keeps the loop going. -/
theorem c6_tool_error_envelope_witness :
    execute_single_tool envC6 "p-c6"
        { id := "call_9", function := { name := "read_file", arguments := "oops" } } =
      .error { code := "INVALID_ARGS"
             , message := "Failed to parse tool args: expected value at line 1 column 1" } ∧
    execute_single_tool envC6err "p-c6" toolCallC6 =
      .ok (jsonToString (.obj [("error", .str "file not found")])) ∧
    (∃ st', runToolCalls envC6err "run-c6e" "p-c6" [toolCallC6] (initState taskC6 projC6) = .ok st') := by
  refine ⟨?_, ?_, ?_⟩
  · exact (c6_tool_error_envelope envC6 "p-c6" _).1 "expected value at line 1 column 1" (by rfl)
  · exact (c6_tool_error_envelope envC6err "p-c6" toolCallC6).2.1 (.obj [])
      "file not found" (by rfl) (by rfl)
  · exact (c6_tool_error_envelope envC6err "p-c6" toolCallC6).2.2 "run-c6e" [toolCallC6] _
      (by intro tc h; rw [List.mem_singleton] at h; subst h; exact ⟨.obj [], rfl⟩)

/-! ## Claim C7: runs are never closed -/

/-- C7 (amended): the run row is created at loop entry with ended_at NULL,
and nothing ever sets it — the row generate_plan returns is exactly the
created one, still open; every persisted message row belongs to that run. -/
theorem c7_run_never_closed (env : PlanEnv) (project : Project) (task : Task) :
    (create_run env task.id "plan").ended_at = none ∧
    (∀ o, generate_plan env project task = .ok o →
      o.run = create_run env task.id "plan" ∧
      o.run.ended_at = none ∧
      ∀ row ∈ o.log, row.run_id = o.run.id) := by
  refine ⟨rfl, ?_⟩
  intro o h
  rw [generate_plan] at h
  cases hkey : env.apiKeyVar with
  | none => rw [hkey] at h; simp at h
  | some key =>
    rw [hkey] at h
    cases hloop : planLoop env (create_run env task.id "plan").id project.id
        MAX_TOOL_ITERATIONS (initState task project) with
    | error epair =>
      obtain ⟨e, stE⟩ := epair
      rw [hloop] at h
      simp at h
    | ok pair =>
      obtain ⟨st, exit⟩ := pair
      rw [hloop] at h
      simp only at h
      have h2 : finishPlan (create_run env task.id "plan") task st exit = o :=
        Except.ok.inj h
      subst h2
      refine ⟨rfl, rfl, ?_⟩
      have hlog := planLoop_log_inv env (create_run env task.id "plan").id project.id
        MAX_TOOL_ITERATIONS (initState task project) (by intro row hrow; simp [initState] at hrow)
      rw [hloop] at hlog
      exact hlog

/-- Environment for the C7 counterexample: a clean single-turn success. -/
def envC7 : PlanEnv where
  llm := fun _ => { content := some "# Implementation Plan: done", tool_calls := none }
  parseArgs := fun _ => .ok (.obj [])
  execTool := fun _ _ => .ok (.obj [])
  apiKeyVar := some "sk-test"
  settings := settingsSeed
  runId := "run-c7"
  startedAt := "2026-03-05T00:00:00Z"

/-- Project for the C7 counterexample. -/
def projC7 : Project := { id := "p-c7", repo_path := "/repo" }

/-- Task for the C7 counterexample. -/
def taskC7 : Task := { id := "t-c7", title := "Demo" }

/-- The concrete outcome of the C7 run. -/
def outC7 : GeneratePlanOutcome :=
  (generate_plan envC7 projC7 taskC7).toOption.getD junkOutcome

set_option maxRecDepth 100000 in
/-- C7 counterexample: a run that completed successfully — the workflow has
returned — still has ended_at NULL; the claim says ended_at is set when the
entry point returns. -/
theorem c7_counterexample :
    generate_plan envC7 projC7 taskC7 = .ok outC7 ∧
    outC7.run.ended_at = none ∧
    outC7.result.plan_md = "# Implementation Plan: done" :=
  ⟨by rfl, by rfl, by rfl⟩

set_option maxRecDepth 100000 in
/-- C7 witness: the never-closed theorem applied to the concrete run. -/
theorem c7_run_never_closed_witness :
    (create_run envC7 taskC7.id "plan").ended_at = none ∧
    (outC7.run = create_run envC7 taskC7.id "plan" ∧
      outC7.run.ended_at = none ∧
      ∀ row ∈ outC7.log, row.run_id = outC7.run.id) :=
  ⟨(c7_run_never_closed envC7 projC7 taskC7).1,
    (c7_run_never_closed envC7 projC7 taskC7).2 outC7 (by rfl)⟩

end Plan

end SpecTrail
